import Mathlib

/-!
Shallow embedding of the BitNet ordered-dithering engine
(`src/bitnet_dithering.cpp`, `include/bitnet_dithering.h`).

Modelling conventions:
* C `float` buffers are `List ℝ`; all arithmetic is exact real arithmetic.
* The two constant Bayer tables are stored as `List ℚ` (their entries are the
  exact rationals `k/16` and `k/64` from the source) and cast to `ℝ` at the
  point of use, so that table lookups stay kernel-computable.
* The process-wide globals `g_dithering_config`, `g_dithering_metrics` and
  `g_dithering_initialized` become an explicit `EngineState` value threaded
  through every function.  Functions that in C could mutate the globals return
  a `... × EngineState` pair whose second component is the state after the
  call, translated branch by branch from the source (none of the apply/query
  functions writes a global, so each branch returns the incoming state).
* `size` parameters are implicit in the list length; `int` parameters that the
  source compares or divides (`sequence_length`, `hidden_size`,
  `bayer_matrix_size`, `layer_idx`) are `ℤ`.
-/

namespace BitNet

/-- `struct BitNetDitheringConfig` (header lines 7–14). -/
structure BitNetDitheringConfig where
  enable_dithering : Bool
  dithering_strength : ℝ
  bayer_matrix_size : ℤ
  adaptive_strength : Bool
  resolution_enhancement : Bool

/-- `struct BitNetDitheringMetrics` (header lines 17–23).  The C field names
end in a suffix this development cannot use as an identifier tail, so the
`_ratio` suffixes are dropped: `inference_speed` is `inference_speed_ratio`,
`quality_improvement` is `quality_improvement_ratio`. -/
structure BitNetDitheringMetrics where
  inference_speed : ℝ
  quality_improvement : ℝ
  memory_overhead : ℝ
  perplexity_improvement : ℝ

/-- The three file-scope globals of `bitnet_dithering.cpp` (lines 9–11). -/
structure EngineState where
  config : BitNetDitheringConfig
  metrics : BitNetDitheringMetrics
  initialized : Bool

/-- `BAYER_4X4` (source lines 14–18): the 4×4 Bayer matrix, entries `k/16`. -/
def BAYER_4X4 : List ℚ :=
  [0/16, 8/16, 2/16, 10/16,
   12/16, 4/16, 14/16, 6/16,
   3/16, 11/16, 1/16, 9/16,
   15/16, 7/16, 13/16, 5/16]

/-- `BAYER_8X8` (source lines 21–29): the 8×8 Bayer matrix, entries `k/64`. -/
def BAYER_8X8 : List ℚ :=
  [0/64, 32/64, 8/64, 40/64, 2/64, 34/64, 10/64, 42/64,
   48/64, 16/64, 56/64, 24/64, 50/64, 18/64, 58/64, 26/64,
   12/64, 44/64, 4/64, 36/64, 14/64, 46/64, 6/64, 38/64,
   60/64, 28/64, 52/64, 20/64, 62/64, 30/64, 54/64, 22/64,
   3/64, 35/64, 11/64, 43/64, 1/64, 33/64, 9/64, 41/64,
   49/64, 17/64, 57/64, 25/64, 51/64, 19/64, 59/64, 27/64,
   15/64, 47/64, 7/64, 39/64, 13/64, 45/64, 5/64, 37/64,
   63/64, 31/64, 55/64, 23/64, 61/64, 29/64, 53/64, 21/64]

/-- The Bayer index computed for flat position `i` in `bitnet_ordered_dither`
(source lines 166–169): `row = (i / matrix_size) % matrix_size`,
`col = i % matrix_size`, `bayer_idx = row * matrix_size + col`. -/
def bayerIndex (matrix_size i : ℕ) : ℕ :=
  ((i / matrix_size) % matrix_size) * matrix_size + i % matrix_size

/-- The noise added at flat position `i` (source line 172):
`(bayer_matrix[bayer_idx] - 0.5f) * strength`. -/
noncomputable def ditherNoise (bayer_matrix : List ℚ) (matrix_size : ℕ)
    (strength : ℝ) (i : ℕ) : ℝ :=
  (((bayer_matrix.getD (bayerIndex matrix_size i) 0 : ℚ) : ℝ) - 0.5) * strength

/-- The loop body of `bitnet_ordered_dither` starting from flat index `i`:
`data[i] += noise` for each remaining element. -/
noncomputable def ditherFrom (bayer_matrix : List ℚ) (matrix_size : ℕ)
    (strength : ℝ) : ℕ → List ℝ → List ℝ
  | _, [] => []
  | i, x :: xs =>
      (x + ditherNoise bayer_matrix matrix_size strength i) ::
        ditherFrom bayer_matrix matrix_size strength (i + 1) xs

/-- `bitnet_ordered_dither` (source lines 160–175): adds
`(bayer_matrix[bayer_idx(i)] - 0.5) * strength` to `data[i]` for every
`i < size`, in place. -/
noncomputable def bitnet_ordered_dither (data : List ℝ) (bayer_matrix : List ℚ)
    (matrix_size : ℕ) (strength : ℝ) : List ℝ :=
  ditherFrom bayer_matrix matrix_size strength 0 data

/-- `min_val` of `bitnet_calculate_content_complexity` (source lines 88–95):
starts at `weights[0]` and folds `min` over the remaining elements. -/
def listMin : List ℝ → ℝ
  | [] => 0
  | x :: xs => xs.foldl min x

/-- `max_val` of `bitnet_calculate_content_complexity` (source lines 88–95). -/
def listMax : List ℝ → ℝ
  | [] => 0
  | x :: xs => xs.foldl max x

/-- `mean` of `bitnet_calculate_content_complexity` (source lines 66–74). -/
noncomputable def srcMean (weights : List ℝ) : ℝ :=
  weights.sum / weights.length

/-- `variance` of `bitnet_calculate_content_complexity` (source lines 76–83):
population variance around `srcMean`. -/
noncomputable def srcVariance (weights : List ℝ) : ℝ :=
  (weights.map (fun x => (x - srcMean weights) * (x - srcMean weights))).sum /
    weights.length

/-- C's `static_cast<int>` on a float: truncation toward zero. -/
noncomputable def cTrunc (x : ℝ) : ℤ :=
  if 0 ≤ x then ⌊x⌋ else ⌈x⌉

/-- The histogram bin chosen for value `x` (source lines 102–103):
`bin = (int)((x - min_val) / range * (bins - 1))` clamped into `[0, 31]`. -/
noncomputable def srcBin (min_val range x : ℝ) : ℤ :=
  max 0 (min 31 (cTrunc ((x - min_val) / range * 31)))

/-- `histogram[b]` after the population loop (source lines 97–106): counts are
only accumulated when `range > 0`; otherwise every bin stays `0`. -/
noncomputable def srcHist (weights : List ℝ) (b : ℕ) : ℕ :=
  if 0 < listMax weights - listMin weights then
    weights.countP (fun x =>
      decide (srcBin (listMin weights) (listMax weights - listMin weights) x = (b : ℤ)))
  else 0

/-- `entropy` of `bitnet_calculate_content_complexity` (source lines 108–116):
`entropy -= p * log2 p` over the non-empty bins, `p = histogram[b] / size`. -/
noncomputable def srcEntropy (weights : List ℝ) : ℝ :=
  ∑ b ∈ Finset.range 32,
    if 0 < srcHist weights b then
      -(((srcHist weights b : ℝ) / weights.length) *
        Real.logb 2 ((srcHist weights b : ℝ) / weights.length))
    else 0

/-- `bitnet_calculate_content_complexity` (source lines 60–120):
`0` for an empty buffer, else `variance * 0.6 + entropy * 0.4`. -/
noncomputable def bitnet_calculate_content_complexity (weights : List ℝ) : ℝ :=
  if weights.length = 0 then 0
  else srcVariance weights * 0.6 + srcEntropy weights * 0.4

/-- `bitnet_should_apply_dithering` (source lines 123–135), as the proposition
the returned `bool` decides: `false` when the engine is uninitialized or
dithering is disabled, else `complexity > 0.02`.  The state component mirrors
the absence of global writes in the source. -/
noncomputable def bitnet_should_apply_dithering (st : EngineState)
    (weights : List ℝ) : Prop × EngineState :=
  (st.initialized = true ∧ st.config.enable_dithering = true ∧
    bitnet_calculate_content_complexity weights > 0.02, st)

/-- `bitnet_calculate_adaptive_strength` (source lines 138–157).  Reads only
the globals `g_dithering_config.adaptive_strength` and
`g_dithering_config.dithering_strength` (never a caller-supplied config). -/
noncomputable def bitnet_calculate_adaptive_strength (st : EngineState)
    (weights : List ℝ) : ℝ × EngineState :=
  if st.config.adaptive_strength = false then
    (st.config.dithering_strength, st)
  else
    let complexity := bitnet_calculate_content_complexity weights
    let base_strength := st.config.dithering_strength
    let adaptive_factor :=
      max 0.5 (min 2.0 (1.0 + (complexity - 0.1) * 2.0))
    (base_strength * adaptive_factor, st)

/-- `bitnet_apply_ordered_dithering` (source lines 178–203).  Note the source
checks only the caller's config pointer and its `enable_dithering` flag; it
never consults `g_dithering_initialized`.  The adaptive branch calls
`bitnet_calculate_adaptive_strength`, which reads the global config in `st`. -/
noncomputable def bitnet_apply_ordered_dithering (st : EngineState)
    (weights : List ℝ) (layer_idx : ℤ)
    (config : Option BitNetDitheringConfig) : List ℝ × EngineState :=
  match config with
  | none => (weights, st)
  | some cfg =>
    if cfg.enable_dithering = false then (weights, st)
    else
      let strength :=
        if cfg.adaptive_strength then
          (bitnet_calculate_adaptive_strength st weights).1
        else cfg.dithering_strength
      if cfg.bayer_matrix_size = 8 then
        (bitnet_ordered_dither weights BAYER_8X8 8 strength, st)
      else
        (bitnet_ordered_dither weights BAYER_4X4 4 strength, st)

/-- `bitnet_apply_resolution_dithering` (source lines 206–217): no-op unless
initialized and `resolution_enhancement`; otherwise copies the global config,
overrides `dithering_strength := scale` and `bayer_matrix_size := 8`, and
delegates to `bitnet_apply_ordered_dithering`. -/
noncomputable def bitnet_apply_resolution_dithering (st : EngineState)
    (weights : List ℝ) (layer_idx : ℤ) (scale : ℝ) : List ℝ × EngineState :=
  if st.initialized = false ∨ st.config.resolution_enhancement = false then
    (weights, st)
  else
    let config :=
      { st.config with dithering_strength := scale, bayer_matrix_size := 8 }
    bitnet_apply_ordered_dithering st weights layer_idx (some config)

/-- The segment loop of `bitnet_enhance_resolution_dithering` (source lines
239–242): `for (i = 0; i < size; i += elements_per_token)` applies
`bitnet_apply_ordered_dithering` to the `elements_per_token` elements starting
at `i`.  In this list model the final chunk is truncated at the end of the
buffer; the source instead passes a fixed length `elements_per_token` even for
a trailing partial chunk — the index-level model `fineLoopWrites` below
captures that exact index arithmetic. -/
noncomputable def ditherSegments (st : EngineState)
    (config : BitNetDitheringConfig) (elements_per_token : ℕ)
    (l : List ℝ) : List ℝ :=
  if h : elements_per_token = 0 ∨ l = [] then l
  else
    (bitnet_apply_ordered_dithering st (l.take elements_per_token) 0
      (some config)).1 ++
      ditherSegments st config elements_per_token (l.drop elements_per_token)
termination_by l.length
decreasing_by
  simp only [not_or] at h
  have hl : l ≠ [] := h.2
  have : 0 < l.length := List.length_pos.mpr hl
  simp only [List.length_drop]
  omega

/-- The exact buffer indices read and written by the fine-dithering loop of
`bitnet_enhance_resolution_dithering` (source lines 239–242).  The loop runs
for `i = 0, h, 2h, …` while `i < size` — that is `⌈size/h⌉` iterations for
`h > 0` — and each iteration calls
`bitnet_apply_ordered_dithering(&activations[i], h, 0, &config)`, which
accesses `activations[i + t]` for every `t < h`. -/
def fineLoopWrites (size hidden : ℕ) : List ℕ :=
  ((List.range ((size + hidden - 1) / hidden)).map
    (fun j => (List.range hidden).map (fun t => j * hidden + t))).flatten

/-- `bitnet_enhance_resolution_dithering` (source lines 220–249): when
`size / hidden_size == sequence_length` (C integer division) the buffer is
dithered segment by segment with a transient config (`strength 0.05`,
`matrix 8`); otherwise one global pass with the unmodified global config. -/
noncomputable def bitnet_enhance_resolution_dithering (st : EngineState)
    (activations : List ℝ) (sequence_length hidden_size : ℤ) :
    List ℝ × EngineState :=
  if st.initialized = false ∨ st.config.resolution_enhancement = false then
    (activations, st)
  else
    let elements_per_token := hidden_size
    let total_tokens := (activations.length : ℤ) / elements_per_token
    if total_tokens = sequence_length then
      let config :=
        { st.config with dithering_strength := 0.05, bayer_matrix_size := 8 }
      (ditherSegments st config elements_per_token.toNat activations, st)
    else
      bitnet_apply_ordered_dithering st activations 0 (some st.config)

/-- `bitnet_dithering_init` (source lines 32–51). -/
noncomputable def bitnet_dithering_init (st : EngineState) : EngineState :=
  if st.initialized = true then st
  else
    { config :=
        { enable_dithering := true
          dithering_strength := 0.1
          bayer_matrix_size := 4
          adaptive_strength := true
          resolution_enhancement := true }
      metrics :=
        { inference_speed := 1.0
          quality_improvement := 0.0
          memory_overhead := 0.0
          perplexity_improvement := 0.0 }
      initialized := true }

/-- `bitnet_dithering_cleanup` (source lines 54–57). -/
def bitnet_dithering_cleanup (st : EngineState) : EngineState :=
  { st with initialized := false }

/-- `bitnet_set_dithering_config` (source lines 252–258). -/
def bitnet_set_dithering_config (st : EngineState)
    (config : Option BitNetDitheringConfig) : EngineState :=
  match config with
  | some c => { st with config := c }
  | none => st

/-- `bitnet_get_dithering_config` (source lines 261–264). -/
def bitnet_get_dithering_config (st : EngineState) :
    BitNetDitheringConfig × EngineState :=
  (st.config, st)

/-- `bitnet_get_dithering_metrics` (source lines 267–270). -/
def bitnet_get_dithering_metrics (st : EngineState) :
    BitNetDitheringMetrics × EngineState :=
  (st.metrics, st)

/-- The globals at process start: config fields at their C default member
initializers (header lines 9–13), metrics zero-initialized (static storage),
`g_dithering_initialized = false`. -/
noncomputable def zeroState : EngineState :=
  { config :=
      { enable_dithering := true
        dithering_strength := 0.1
        bayer_matrix_size := 4
        adaptive_strength := true
        resolution_enhancement := true }
    metrics :=
      { inference_speed := 0
        quality_improvement := 0
        memory_overhead := 0
        perplexity_improvement := 0 }
    initialized := false }

/-- The engine state right after `bitnet_dithering_init()`. -/
noncomputable def initState : EngineState :=
  bitnet_dithering_init zeroState

/-- Arithmetic mean of a buffer (the quantity the mean-preservation claim
about `bitnet_ordered_dither` is stated over). -/
noncomputable def listMean (l : List ℝ) : ℝ :=
  l.sum / l.length

/-! ## Helper lemmas about the dithering loop -/

/-- The dithering loop preserves the buffer length. -/
theorem ditherFrom_length (b : List ℚ) (ms : ℕ) (s : ℝ) :
    ∀ (i : ℕ) (l : List ℝ), (ditherFrom b ms s i l).length = l.length := by
  intro i l
  induction l generalizing i with
  | nil => rfl
  | cons x xs ih => simp [ditherFrom, ih]

/-- The sum of a dithered buffer is the original sum plus the sum of the
noise terms at the traversed flat indices. -/
theorem ditherFrom_sum (b : List ℚ) (ms : ℕ) (s : ℝ) :
    ∀ (i : ℕ) (l : List ℝ), (ditherFrom b ms s i l).sum =
      l.sum + ∑ j ∈ Finset.range l.length, ditherNoise b ms s (i + j) := by
  intro i l
  induction l generalizing i with
  | nil => simp [ditherFrom]
  | cons x xs ih =>
    simp only [ditherFrom, List.sum_cons, List.length_cons, ih (i + 1)]
    rw [Finset.sum_range_succ']
    have : ∀ j, ditherNoise b ms s (i + (j + 1)) = ditherNoise b ms s (i + 1 + j) := by
      intro j; congr 1; omega
    simp only [this]
    ring_nf
    simp [add_comm, add_assoc, add_left_comm]

/-- The Bayer index is periodic in the flat position with period
`matrix_size²`. -/
theorem bayerIndex_add_sq (ms i : ℕ) (h : 0 < ms) :
    bayerIndex ms (i + ms * ms) = bayerIndex ms i := by
  unfold bayerIndex
  rw [Nat.add_mul_div_right i ms h, Nat.add_mod_right, Nat.add_mul_mod_self_right]

/-- The per-element noise is periodic with period `matrix_size²`. -/
theorem ditherNoise_add_mul_sq (b : List ℚ) (ms : ℕ) (s : ℝ) (h : 0 < ms) :
    ∀ (k i : ℕ), ditherNoise b ms s (i + k * (ms * ms)) = ditherNoise b ms s i := by
  intro k
  induction k with
  | zero => simp
  | succ n ih =>
    intro i
    have : i + (n + 1) * (ms * ms) = (i + ms * ms) + n * (ms * ms) := by ring
    rw [this, ih]
    unfold ditherNoise
    rw [bayerIndex_add_sq ms i h]

/-- Summing the noise over `k` full tile periods gives `k` times the
single-tile noise sum. -/
theorem sum_noise_blocks (b : List ℚ) (ms : ℕ) (s : ℝ) (h : 0 < ms) (k : ℕ) :
    ∑ j ∈ Finset.range (k * (ms * ms)), ditherNoise b ms s j =
      (k : ℝ) * ∑ j ∈ Finset.range (ms * ms), ditherNoise b ms s j := by
  induction k with
  | zero => simp
  | succ n ih =>
    have hr : (n + 1) * (ms * ms) = n * (ms * ms) + ms * ms := by ring
    rw [hr, Finset.sum_range_add, ih]
    have : ∀ j, ditherNoise b ms s (n * (ms * ms) + j) = ditherNoise b ms s j := by
      intro j
      rw [add_comm, ditherNoise_add_mul_sq b ms s h]
    simp only [this]
    push_cast
    ring

/-- The noise over one full 4×4 tile sums to `-(1/2) * strength`: the sixteen
table entries are `k/16` for `k = 0..15`, whose mean is `15/32`, not `1/2`. -/
theorem tileSum4 (s : ℝ) :
    ∑ j ∈ Finset.range (4 * 4), ditherNoise BAYER_4X4 4 s j = -(1/2) * s := by
  simp [Finset.sum_range_succ, ditherNoise, bayerIndex, BAYER_4X4]
  ring

set_option maxHeartbeats 1000000 in
/-- The noise over one full 8×8 tile also sums to `-(1/2) * strength`. -/
theorem tileSum8 (s : ℝ) :
    ∑ j ∈ Finset.range (8 * 8), ditherNoise BAYER_8X8 8 s j = -(1/2) * s := by
  simp [Finset.sum_range_succ, ditherNoise, bayerIndex, BAYER_8X8]
  ring

/-- Over a whole number of tiles, `bitnet_ordered_dither` shifts the mean by
exactly `-strength / (2 · matrix_size²)` whenever the single-tile noise sum is
`-(1/2) * strength`. -/
theorem mean_shift_general (data : List ℝ) (b : List ℚ) (ms : ℕ) (s : ℝ) (k : ℕ)
    (hms : 0 < ms)
    (hT : ∑ j ∈ Finset.range (ms * ms), ditherNoise b ms s j = -(1/2) * s)
    (hlen : data.length = k * (ms * ms)) (hk : 1 ≤ k) :
    listMean (bitnet_ordered_dither data b ms s) =
      listMean data - s / (2 * (ms * ms)) := by
  have hlen2 : (bitnet_ordered_dither data b ms s).length = data.length :=
    ditherFrom_length b ms s 0 data
  have hsum : (bitnet_ordered_dither data b ms s).sum =
      data.sum + (k : ℝ) * (-(1/2) * s) := by
    rw [bitnet_ordered_dither, ditherFrom_sum, hlen]
    simp only [Nat.zero_add]
    rw [sum_noise_blocks b ms s hms k, hT]
  unfold listMean
  rw [hlen2, hsum, hlen]
  have hk0 : ((k : ℝ)) ≠ 0 := by positivity
  have hms0 : ((ms : ℝ)) ≠ 0 := by positivity
  field_simp
  ring

/-! ## Helper lemmas about constant buffers -/

theorem foldl_min_replicate (c : ℝ) : ∀ m : ℕ, (List.replicate m c).foldl min c = c := by
  intro m
  induction m with
  | zero => rfl
  | succ n ih => simp only [List.replicate_succ, List.foldl_cons, min_self, ih]

theorem foldl_max_replicate (c : ℝ) : ∀ m : ℕ, (List.replicate m c).foldl max c = c := by
  intro m
  induction m with
  | zero => rfl
  | succ n ih => simp only [List.replicate_succ, List.foldl_cons, max_self, ih]

theorem listMin_replicate (n : ℕ) (c : ℝ) (h : 1 ≤ n) :
    listMin (List.replicate n c) = c := by
  obtain ⟨m, rfl⟩ : ∃ m, n = m + 1 := ⟨n - 1, by omega⟩
  simp only [List.replicate_succ, listMin]
  exact foldl_min_replicate c m

theorem listMax_replicate (n : ℕ) (c : ℝ) (h : 1 ≤ n) :
    listMax (List.replicate n c) = c := by
  obtain ⟨m, rfl⟩ : ∃ m, n = m + 1 := ⟨n - 1, by omega⟩
  simp only [List.replicate_succ, listMax]
  exact foldl_max_replicate c m

theorem srcMean_replicate (n : ℕ) (c : ℝ) (h : 1 ≤ n) :
    srcMean (List.replicate n c) = c := by
  unfold srcMean
  rw [List.sum_replicate, List.length_replicate, nsmul_eq_mul]
  have : ((n : ℝ)) ≠ 0 := by positivity
  field_simp

theorem srcVariance_replicate (n : ℕ) (c : ℝ) (h : 1 ≤ n) :
    srcVariance (List.replicate n c) = 0 := by
  unfold srcVariance
  rw [List.map_replicate, srcMean_replicate n c h]
  simp

/-- On a constant buffer the histogram is never populated: the range is 0. -/
theorem srcHist_replicate (n : ℕ) (c : ℝ) (b : ℕ) :
    srcHist (List.replicate n c) b = 0 := by
  unfold srcHist
  rw [if_neg]
  intro hlt
  rcases Nat.eq_zero_or_pos n with h0 | h1
  · subst h0; simp [listMin, listMax] at hlt
  · rw [listMin_replicate n c h1, listMax_replicate n c h1] at hlt
    simp at hlt

theorem srcEntropy_replicate (n : ℕ) (c : ℝ) :
    srcEntropy (List.replicate n c) = 0 := by
  unfold srcEntropy
  simp [srcHist_replicate]

/-- A constant buffer has complexity exactly 0: zero variance and, because the
histogram population is skipped when `range = 0`, zero entropy. -/
theorem complexity_replicate (n : ℕ) (c : ℝ) (h : 1 ≤ n) :
    bitnet_calculate_content_complexity (List.replicate n c) = 0 := by
  unfold bitnet_calculate_content_complexity
  rw [if_neg (by simp; omega)]
  rw [srcVariance_replicate n c h, srcEntropy_replicate n c]
  ring

/-- On a constant buffer with adaptive strength enabled, the adaptive factor
is `clamp(1 + (0 - 0.1)·2, 0.5, 2) = 0.8`, so the result is `base · 0.8`. -/
theorem adaptive_strength_replicate (st : EngineState) (n : ℕ) (c : ℝ)
    (hn : 1 ≤ n) (ha : st.config.adaptive_strength = true) :
    (bitnet_calculate_adaptive_strength st (List.replicate n c)).1 =
      st.config.dithering_strength * 0.8 := by
  unfold bitnet_calculate_adaptive_strength
  rw [if_neg (by simp [ha])]
  simp only [complexity_replicate n c hn]
  norm_num

/-! ## Helper lemmas about the engine state component -/

theorem apply_ordered_state (st : EngineState) (w : List ℝ) (layer : ℤ)
    (c : Option BitNetDitheringConfig) :
    (bitnet_apply_ordered_dithering st w layer c).2 = st := by
  unfold bitnet_apply_ordered_dithering
  rcases c with _ | cfg
  · rfl
  · dsimp only
    split
    · rfl
    · split <;> rfl

theorem apply_resolution_state (st : EngineState) (w : List ℝ) (layer : ℤ)
    (scale : ℝ) :
    (bitnet_apply_resolution_dithering st w layer scale).2 = st := by
  unfold bitnet_apply_resolution_dithering
  split
  · rfl
  · exact apply_ordered_state st w layer _

theorem enhance_state (st : EngineState) (acts : List ℝ) (seq hidden : ℤ) :
    (bitnet_enhance_resolution_dithering st acts seq hidden).2 = st := by
  unfold bitnet_enhance_resolution_dithering
  split
  · rfl
  · dsimp only
    split
    · rfl
    · exact apply_ordered_state st acts 0 _

theorem calc_adaptive_state (st : EngineState) (w : List ℝ) :
    (bitnet_calculate_adaptive_strength st w).2 = st := by
  unfold bitnet_calculate_adaptive_strength
  split <;> rfl

/-- For any engine state, applying the enabled non-adaptive strength-1 4×4
config to `[1,1,1,1]` produces `[0.5, 1, 0.625, 1.125]`. -/
theorem apply_ordered_concrete_any (st : EngineState) :
    (bitnet_apply_ordered_dithering st [1, 1, 1, 1] 0
      (some ⟨true, 1, 4, false, true⟩)).1 = [0.5, 1, 0.625, 1.125] := by
  simp [bitnet_apply_ordered_dithering, bitnet_ordered_dither, ditherFrom,
    ditherNoise, bayerIndex, BAYER_4X4]
  norm_num

/-! ## The claims -/

/-- Claim C1: for the buffer `[1,1,1,1]` and a config with enabled, strength
1.0, pattern size 4, non-adaptive, `bitnet_apply_ordered_dithering` turns the
buffer into exactly `[0.5, 1.0, 0.625, 1.125]`: element `i` receives noise
`(BAYER_4X4[i] - 0.5) * 1.0`. -/
theorem claim_c1_apply_ordered_dithering_concrete :
    (bitnet_apply_ordered_dithering initState [1, 1, 1, 1] 0
      (some ⟨true, 1, 4, false, true⟩)).1 = [0.5, 1, 0.625, 1.125] :=
  apply_ordered_concrete_any initState

/-- Claim C2, counterexample: dithering the all-zero buffer of length
`16 = 4·4` with the 4×4 matrix and strength 1 changes the mean (it becomes
`-1/32`), refuting the claim that the mean change over full tiles is exactly
0: the Bayer entries `k/16` sum to `15/2`, so the tile noise sum is `-1/2`,
not 0. -/
theorem claim_c2_counterexample :
    listMean (bitnet_ordered_dither (List.replicate 16 (0:ℝ)) BAYER_4X4 4 1) ≠
      listMean (List.replicate 16 (0:ℝ)) := by
  have h := mean_shift_general (List.replicate 16 (0:ℝ)) BAYER_4X4 4 1 1
    (by norm_num) (tileSum4 1) (by simp) (le_refl 1)
  rw [h]
  have h0 : listMean (List.replicate 16 (0:ℝ)) = 0 := by simp [listMean]
  rw [h0]
  norm_num

/-- Claim C2, amended: over a buffer whose length is an exact positive
multiple of `patternSize²` (pattern 4 or 8 with its matching table),
`bitnet_ordered_dither` shifts the arithmetic mean by exactly
`-strength / (2 · patternSize²)` in exact arithmetic — not by 0 — because the
sum of `(t - 0.5)` over one complete tile is `-1/2`. -/
theorem claim_c2_mean_shift :
    ∀ (data : List ℝ) (bayer : List ℚ) (ms : ℕ) (s : ℝ) (k : ℕ),
    ((bayer = BAYER_4X4 ∧ ms = 4) ∨ (bayer = BAYER_8X8 ∧ ms = 8)) →
    data.length = k * (ms * ms) → 1 ≤ k →
    listMean (bitnet_ordered_dither data bayer ms s) =
      listMean data - s / (2 * (ms * ms)) := by
  intro data bayer ms s k hmat hlen hk
  rcases hmat with ⟨hb, hm⟩ | ⟨hb, hm⟩
  · subst hb; subst hm
    exact mean_shift_general data BAYER_4X4 4 s k (by norm_num) (tileSum4 s) hlen hk
  · subst hb; subst hm
    exact mean_shift_general data BAYER_8X8 8 s k (by norm_num) (tileSum8 s) hlen hk

/-- Claim C2, witness: the amended statement evaluated on the all-ones buffer
of length `32 = 2·16`, strength 1, 4×4 pattern: the mean drops by `1/32`. -/
theorem claim_c2_mean_shift_witness :
    listMean (bitnet_ordered_dither (List.replicate 32 (1:ℝ)) BAYER_4X4 4 1) =
      listMean (List.replicate 32 (1:ℝ)) - 1 / 32 := by
  have h := claim_c2_mean_shift (List.replicate 32 (1:ℝ)) BAYER_4X4 4 1 2
    (Or.inl ⟨rfl, rfl⟩) (by simp) (by norm_num)
  rw [h]
  norm_num

/-- Claim C3, counterexample: with the engine uninitialized (`zeroState`),
`bitnet_apply_ordered_dithering` with a non-null enabled config still mutates
the buffer — the source never checks `g_dithering_initialized` there — so not
every buffer-mutating entry point is a no-op when `initialized = false`. -/
theorem claim_c3_counterexample :
    zeroState.initialized = false ∧
    (bitnet_apply_ordered_dithering zeroState [1, 1, 1, 1] 0
      (some ⟨true, 1, 4, false, true⟩)).1 ≠ [1, 1, 1, 1] := by
  refine ⟨rfl, ?_⟩
  rw [apply_ordered_concrete_any zeroState]
  norm_num

/-- Claim C3, amended: the two entry points that consult the engine state —
`bitnet_apply_resolution_dithering` and `bitnet_enhance_resolution_dithering`
— do return immediately with the buffer unchanged when `initialized = false`;
`bitnet_apply_ordered_dithering` is driven solely by its explicit config
argument and is not gated on the initialized flag. -/
theorem claim_c3_uninitialized_noop :
    ∀ (st : EngineState) (w : List ℝ) (layer : ℤ) (scale : ℝ) (seq hidden : ℤ),
    st.initialized = false →
    (bitnet_apply_resolution_dithering st w layer scale).1 = w ∧
    (bitnet_enhance_resolution_dithering st w seq hidden).1 = w := by
  intro st w layer scale seq hidden h
  constructor
  · unfold bitnet_apply_resolution_dithering
    rw [if_pos (Or.inl h)]
  · unfold bitnet_enhance_resolution_dithering
    rw [if_pos (Or.inl h)]

/-- Claim C3, witness: the amended statement evaluated at the uninitialized
start state on the buffer `[1, 2]`. -/
theorem claim_c3_uninitialized_noop_witness :
    (bitnet_apply_resolution_dithering zeroState [1, 2] 0 1).1 = [1, 2] ∧
    (bitnet_enhance_resolution_dithering zeroState [1, 2] 3 5).1 = [1, 2] :=
  claim_c3_uninitialized_noop zeroState [1, 2] 0 1 3 5 rfl

/-- Claim C4, counterexample: with the global config adaptive
(strength `0.1`) and `scale = 1`, `bitnet_apply_resolution_dithering` on the
constant buffer `[1,1,1,1]` does NOT dither with strength
`scale · clamp(1 + (complexity - 0.1)·2, 0.5, 2)`: the adaptive path reads
the global strength `0.1`, not the transient `scale`, so it applies
`0.1 · 0.8 = 0.08` instead of `1 · 0.8 = 0.8`. -/
theorem claim_c4_counterexample :
    (bitnet_apply_resolution_dithering
        (⟨⟨true, 0.1, 4, true, true⟩, ⟨1, 0, 0, 0⟩, true⟩ : EngineState)
        (List.replicate 4 (1:ℝ)) 0 1).1 ≠
      bitnet_ordered_dither (List.replicate 4 (1:ℝ)) BAYER_8X8 8
        (1 * max 0.5 (min 2.0
          (1.0 + (bitnet_calculate_content_complexity (List.replicate 4 (1:ℝ)) - 0.1) * 2.0))) := by
  have hA : (bitnet_calculate_adaptive_strength
      (⟨⟨true, 0.1, 4, true, true⟩, ⟨1, 0, 0, 0⟩, true⟩ : EngineState)
      (List.replicate 4 (1:ℝ))).1 = 0.1 * 0.8 :=
    adaptive_strength_replicate _ 4 1 (by norm_num) rfl
  have hC : bitnet_calculate_content_complexity (List.replicate 4 (1:ℝ)) = 0 :=
    complexity_replicate 4 1 (by norm_num)
  intro h
  rw [hC] at h
  simp [bitnet_apply_resolution_dithering, bitnet_apply_ordered_dithering,
    bitnet_ordered_dither, List.replicate, ditherFrom, ditherNoise, bayerIndex,
    BAYER_8X8] at h
  rw [show List.replicate 4 (1:ℝ) = [1, 1, 1, 1] from rfl] at hA
  rcases h.1 with hcase | hcase
  · rw [hA] at hcase
    norm_num [max_def, min_def] at hcase
  · norm_num at hcase

/-- Claim C4, amended: when the engine is initialized with resolution
enhancement and dithering enabled, `bitnet_apply_resolution_dithering` equals
`bitnet_apply_ordered_dithering` on the transient config (global config with
`strength := scale`, `patternSize := 8`); the applied noise strength is
`scale` itself when `adaptiveStrength` is false, but when `adaptiveStrength`
is true it is the GLOBAL strength times the clamped adaptive factor (the
transient `scale` is ignored by the adaptive path). -/
theorem claim_c4_resolution_transient :
    ∀ (st : EngineState) (w : List ℝ) (layer : ℤ) (scale : ℝ),
    st.initialized = true → st.config.resolution_enhancement = true →
    st.config.enable_dithering = true →
    (bitnet_apply_resolution_dithering st w layer scale).1 =
      (bitnet_apply_ordered_dithering st w layer
        (some { st.config with dithering_strength := scale, bayer_matrix_size := 8 })).1 ∧
    (st.config.adaptive_strength = false →
      (bitnet_apply_resolution_dithering st w layer scale).1 =
        bitnet_ordered_dither w BAYER_8X8 8 scale) ∧
    (st.config.adaptive_strength = true →
      (bitnet_apply_resolution_dithering st w layer scale).1 =
        bitnet_ordered_dither w BAYER_8X8 8 ((bitnet_calculate_adaptive_strength st w).1) ∧
      (bitnet_calculate_adaptive_strength st w).1 =
        st.config.dithering_strength *
          max 0.5 (min 2.0 (1.0 + (bitnet_calculate_content_complexity w - 0.1) * 2.0))) := by
  intro st w layer scale hi hr he
  have h1 : (bitnet_apply_resolution_dithering st w layer scale).1 =
      (bitnet_apply_ordered_dithering st w layer
        (some { st.config with dithering_strength := scale, bayer_matrix_size := 8 })).1 := by
    unfold bitnet_apply_resolution_dithering
    rw [if_neg (by simp [hi, hr])]
  refine ⟨h1, fun hA => ?_, fun hA => ⟨?_, ?_⟩⟩
  · rw [h1]
    simp [bitnet_apply_ordered_dithering, he, hA]
  · rw [h1]
    simp [bitnet_apply_ordered_dithering, he, hA]
  · unfold bitnet_calculate_adaptive_strength
    rw [if_neg (by simp [hA])]

/-- Claim C4, witness: the amended statement evaluated at an initialized
non-adaptive state on `[1, 2]` with `scale = 2`: the pass dithers with the
8×8 table at strength exactly `2`. -/
theorem claim_c4_resolution_transient_witness :
    (bitnet_apply_resolution_dithering
        (⟨⟨true, 0.1, 4, false, true⟩, ⟨1, 0, 0, 0⟩, true⟩ : EngineState)
        [1, 2] 0 2).1 =
      bitnet_ordered_dither [1, 2] BAYER_8X8 8 2 :=
  (claim_c4_resolution_transient
    (⟨⟨true, 0.1, 4, false, true⟩, ⟨1, 0, 0, 0⟩, true⟩ : EngineState)
    [1, 2] 0 2 rfl rfl rfl).2.1 rfl

/-- Claim C5, counterexample: on the just-initialized default engine
(`adaptive_strength = true`, global strength `0.1`),
`bitnet_enhance_resolution_dithering` of eight ones with `seq = 2`,
`hidden = 4` does NOT give each segment noise `(BAYER_8X8[i] - 0.5) * 0.05`:
the transient config keeps the adaptive flag, so each constant segment is
dithered with `0.1 · 0.8 = 0.08`, and the first element becomes `0.96`, not
`0.975`. -/
theorem claim_c5_counterexample :
    (bitnet_enhance_resolution_dithering initState (List.replicate 8 (1:ℝ)) 2 4).1.headD 0 ≠
      1 + ditherNoise BAYER_8X8 8 0.05 0 := by
  have hA : (bitnet_calculate_adaptive_strength initState [1, 1, 1, 1]).1 = 0.1 * 0.8 := by
    have h := adaptive_strength_replicate initState 4 1 (by norm_num) rfl
    rw [show List.replicate 4 (1:ℝ) = [1, 1, 1, 1] from rfl] at h
    exact h
  have hen : initState.config.enable_dithering = true := rfl
  have had : initState.config.adaptive_strength = true := rfl
  unfold bitnet_enhance_resolution_dithering
  rw [if_neg (by simp [initState, bitnet_dithering_init, zeroState])]
  rw [show List.replicate 8 (1:ℝ) = [1, 1, 1, 1, 1, 1, 1, 1] from rfl]
  simp only [List.length_cons, List.length_nil]
  norm_num
  rw [ditherSegments]
  rw [dif_neg (by simp)]
  rw [ditherSegments]
  rw [dif_neg (by simp)]
  rw [ditherSegments]
  rw [dif_pos (by simp)]
  simp only [List.take, List.drop]
  simp [bitnet_apply_ordered_dithering, hen, had, hA, bitnet_ordered_dither,
    ditherFrom, ditherNoise, bayerIndex, BAYER_8X8]
  norm_num

/-- Claim C5, amended: for `size = 8`, `seq = 2`, `hidden = 4` with the
engine initialized, resolution enhancement on, dithering enabled AND the
global `adaptive_strength` flag false, each 4-element segment is dithered
independently with strength `0.05` and the 8×8 pattern, the pattern index
restarting at 0 at each segment boundary.  (With `adaptive_strength = true`
— the initialized default — the strength is the adaptively computed one, not
`0.05`; see the counterexample.) -/
theorem claim_c5_enhance_segments :
    ∀ (st : EngineState) (a1 a2 a3 a4 a5 a6 a7 a8 : ℝ),
    st.initialized = true → st.config.resolution_enhancement = true →
    st.config.enable_dithering = true → st.config.adaptive_strength = false →
    (bitnet_enhance_resolution_dithering st [a1, a2, a3, a4, a5, a6, a7, a8] 2 4).1 =
      [a1 + ditherNoise BAYER_8X8 8 0.05 0, a2 + ditherNoise BAYER_8X8 8 0.05 1,
       a3 + ditherNoise BAYER_8X8 8 0.05 2, a4 + ditherNoise BAYER_8X8 8 0.05 3,
       a5 + ditherNoise BAYER_8X8 8 0.05 0, a6 + ditherNoise BAYER_8X8 8 0.05 1,
       a7 + ditherNoise BAYER_8X8 8 0.05 2, a8 + ditherNoise BAYER_8X8 8 0.05 3] := by
  intro st a1 a2 a3 a4 a5 a6 a7 a8 hi hr he ha
  unfold bitnet_enhance_resolution_dithering
  rw [if_neg (by simp [hi, hr])]
  simp only [List.length_cons, List.length_nil]
  norm_num
  rw [ditherSegments]
  rw [dif_neg (by simp)]
  rw [ditherSegments]
  rw [dif_neg (by simp)]
  rw [ditherSegments]
  rw [dif_pos (by simp)]
  simp only [List.take, List.drop]
  unfold bitnet_apply_ordered_dithering
  simp only [he, ha]
  norm_num
  simp [bitnet_ordered_dither, ditherFrom]

/-- Claim C5, witness: the amended statement evaluated on eight ones at an
initialized non-adaptive state. -/
theorem claim_c5_enhance_segments_witness :
    (bitnet_enhance_resolution_dithering
        (⟨⟨true, 0.1, 4, false, true⟩, ⟨1, 0, 0, 0⟩, true⟩ : EngineState)
        [1, 1, 1, 1, 1, 1, 1, 1] 2 4).1 =
      [1 + ditherNoise BAYER_8X8 8 0.05 0, 1 + ditherNoise BAYER_8X8 8 0.05 1,
       1 + ditherNoise BAYER_8X8 8 0.05 2, 1 + ditherNoise BAYER_8X8 8 0.05 3,
       1 + ditherNoise BAYER_8X8 8 0.05 0, 1 + ditherNoise BAYER_8X8 8 0.05 1,
       1 + ditherNoise BAYER_8X8 8 0.05 2, 1 + ditherNoise BAYER_8X8 8 0.05 3] :=
  claim_c5_enhance_segments
    (⟨⟨true, 0.1, 4, false, true⟩, ⟨1, 0, 0, 0⟩, true⟩ : EngineState)
    1 1 1 1 1 1 1 1 rfl rfl rfl rfl

/-- Claim C6: at `size = 9`, `sequence_length = 2`, `hidden_size = 4` the
fine-dithering branch triggers (`9 / 4 = 2` in C integer division) and the
fixed-stride loop of `bitnet_enhance_resolution_dithering` accesses flat
index 11 — past the end of the 9-element buffer — because its third
iteration starts at `i = 8 < 9` and dithers a full 4-element segment.  The
source also divides by `hidden_size` with no zero guard.  This contradicts
the claimed in-bounds behavior. -/
theorem claim_c6_enhance_overrun :
    (9 : ℤ) / 4 = 2 ∧ 11 ∈ fineLoopWrites 9 4 ∧ ¬ (11 < 9) := by decide

/-- Claim C7: `bitnet_calculate_adaptive_strength` returns the global
strength unchanged when `adaptive_strength` is false, otherwise
`base · clamp(1 + (complexity - 0.1)·2, 0.5, 2)` where complexity is the
content-complexity estimate of the buffer; for every buffer and every
positive base the result lies within `[0.5·base, 2·base]`. -/
theorem claim_c7_adaptive_strength (st : EngineState) (w : List ℝ) :
    (st.config.adaptive_strength = false →
      (bitnet_calculate_adaptive_strength st w).1 = st.config.dithering_strength) ∧
    (st.config.adaptive_strength = true →
      (bitnet_calculate_adaptive_strength st w).1 =
        st.config.dithering_strength *
          max 0.5 (min 2.0 (1.0 + (bitnet_calculate_content_complexity w - 0.1) * 2.0))) ∧
    (0 < st.config.dithering_strength →
      0.5 * st.config.dithering_strength ≤ (bitnet_calculate_adaptive_strength st w).1 ∧
      (bitnet_calculate_adaptive_strength st w).1 ≤ 2 * st.config.dithering_strength) := by
  unfold bitnet_calculate_adaptive_strength
  by_cases hA : st.config.adaptive_strength = false
  · rw [if_pos hA]
    dsimp only
    refine ⟨fun _ => rfl, fun h => absurd hA (by simp [h]),
      fun hs => ⟨by linarith, by linarith⟩⟩
  · rw [if_neg hA]
    dsimp only
    refine ⟨fun h => absurd h hA, fun _ => rfl, fun hs => ?_⟩
    have h1 : (0.5 : ℝ) ≤
        max 0.5 (min 2.0 (1.0 + (bitnet_calculate_content_complexity w - 0.1) * 2.0)) :=
      le_max_left _ _
    have h2 : max 0.5 (min 2.0 (1.0 + (bitnet_calculate_content_complexity w - 0.1) * 2.0)) ≤ 2.0 :=
      max_le (by norm_num) (min_le_left _ _)
    constructor
    · nlinarith
    · nlinarith

/-- Claim C7, witness: the bound evaluated at the initialized default state
(base strength `0.1 > 0`) on the buffer `[1, 2, 3]`. -/
theorem claim_c7_adaptive_strength_witness :
    0.5 * initState.config.dithering_strength ≤
      (bitnet_calculate_adaptive_strength initState [1, 2, 3]).1 ∧
    (bitnet_calculate_adaptive_strength initState [1, 2, 3]).1 ≤
      2 * initState.config.dithering_strength :=
  (claim_c7_adaptive_strength initState [1, 2, 3]).2.2
    (by norm_num [initState, bitnet_dithering_init, zeroState])

/-- Claim C8: every constant buffer of size at least 1 has content
complexity exactly 0, and `bitnet_should_apply_dithering` is false on it in
every engine state, since 0 is not greater than the 0.02 threshold. -/
theorem claim_c8_constant_complexity :
    ∀ (c : ℝ) (n : ℕ), 1 ≤ n →
    bitnet_calculate_content_complexity (List.replicate n c) = 0 ∧
    ∀ st : EngineState, ¬ (bitnet_should_apply_dithering st (List.replicate n c)).1 := by
  intro c n hn
  refine ⟨complexity_replicate n c hn, ?_⟩
  rintro st ⟨h1, h2, h3⟩
  rw [complexity_replicate n c hn] at h3
  norm_num at h3

/-- Claim C8, witness: the statement evaluated on four copies of `3` at the
initialized default state. -/
theorem claim_c8_constant_complexity_witness :
    bitnet_calculate_content_complexity (List.replicate 4 (3:ℝ)) = 0 ∧
    ¬ (bitnet_should_apply_dithering initState (List.replicate 4 (3:ℝ))).1 := by
  have h := claim_c8_constant_complexity 3 4 (by norm_num)
  exact ⟨h.1, h.2 initState⟩

/-- Claim C9: `bitnet_apply_ordered_dithering` with a null config, or with a
config whose `enable_dithering` is false, leaves the buffer unchanged, for
every state, buffer and layer index. -/
theorem claim_c9_disabled_noop :
    ∀ (st : EngineState) (w : List ℝ) (layer : ℤ) (cfg : BitNetDitheringConfig),
    (bitnet_apply_ordered_dithering st w layer none).1 = w ∧
    (cfg.enable_dithering = false →
      (bitnet_apply_ordered_dithering st w layer (some cfg)).1 = w) := by
  intro st w layer cfg
  refine ⟨rfl, fun h => ?_⟩
  simp [bitnet_apply_ordered_dithering, h]

/-- Claim C9, witness: evaluated at the initialized default state on `[1,2]`
with a disabled config. -/
theorem claim_c9_disabled_noop_witness :
    (bitnet_apply_ordered_dithering initState [1, 2] 0 none).1 = [1, 2] ∧
    (bitnet_apply_ordered_dithering initState [1, 2] 0
      (some ⟨false, 1, 4, false, true⟩)).1 = [1, 2] := by
  have h := claim_c9_disabled_noop initState [1, 2] 0 ⟨false, 1, 4, false, true⟩
  exact ⟨h.1, h.2 rfl⟩

/-- Claim C10: none of the apply/query operations mutates the engine state:
for all arguments, the state component returned by each one equals the state
passed in (only init, cleanup and setConfig write the globals). -/
theorem claim_c10_state_frame :
    ∀ (st : EngineState) (w : List ℝ) (layer : ℤ)
    (cfg : Option BitNetDitheringConfig) (scale : ℝ) (seq hidden : ℤ),
    (bitnet_apply_ordered_dithering st w layer cfg).2 = st ∧
    (bitnet_apply_resolution_dithering st w layer scale).2 = st ∧
    (bitnet_enhance_resolution_dithering st w seq hidden).2 = st ∧
    (bitnet_should_apply_dithering st w).2 = st ∧
    (bitnet_calculate_adaptive_strength st w).2 = st ∧
    (bitnet_get_dithering_config st).2 = st ∧
    (bitnet_get_dithering_metrics st).2 = st := by
  intro st w layer cfg scale seq hidden
  exact ⟨apply_ordered_state st w layer cfg, apply_resolution_state st w layer scale,
    enhance_state st w seq hidden, rfl, calc_adaptive_state st w, rfl, rfl⟩

end BitNet
